import Mathlib

/-!
# Camera acquisition and recovery engine: a shallow embedding

This file embeds the control logic of `app/logic/camera_handler.py`
(the `CameraHandler` class) into Lean and proves the specification
claims about it.

Modelling conventions:

* The mutable attributes of a `CameraHandler` instance that the control
  logic reads and writes (`self.cap`, `self.running`,
  `self._current_open_attempts`, `self._current_read_failures`) become
  the record `St`.  `self.cap` is `none` when the Python attribute is
  `None`, `some true` when a `VideoCapture` object is held and
  `isOpened()` returns `True`, and `some false` when an object is held
  but `isOpened()` returns `False`.
* The hardware and library behaviour that the code cannot control
  (whether `cv2.VideoCapture` yields an opened device, whether
  `cap.read` returns `ret = True`, whether `cv2.rotate`,
  `cv2.cvtColor`, the `QImage` scaling or `cap.release` raise an
  exception, whether the device spontaneously reports itself closed,
  and whether `stop_capture` is invoked from outside) is supplied by an
  explicit environment: one `OpenAttemptIn` per `_attempt_open_camera`
  call and one `IterIn` per iteration of the main `while self.running`
  loop.
* Emissions on the `camera_error` Qt signal become the inductive type
  `Ev`; emissions on `new_frame` are counted in the `frames` field.
  Calls to `_try_system_level_restart` are counted in `hooks` (each
  such call also emits `Ev.restartFailed`, mirroring line 61 of the
  source).
* A Python exception that propagates out of a function is modelled by
  an `Exn` value in the `exn` field of the output; once `exn` is set
  the asyncio task is dead and no further code of the loop runs.
* `asyncio` schedules cooperatively; we model the serialization in
  which an external `stop_capture` takes effect at an await point at
  the end of an iteration (`IterIn.stopReq`) or during the backoff
  sleep of the startup open-retry loop (the `Bool` component of a
  `StartEnv.retries` entry), the two places the claims depend on.
-/

namespace CameraHandler

/-- `self.MAX_OPEN_ATTEMPTS` (line 43 of the source). -/
def MAX_OPEN_ATTEMPTS : Nat := 3

/-- `self.MAX_READ_FAILURES` (line 44 of the source). -/
def MAX_READ_FAILURES : Nat := 5

/-- The mutable state of a `CameraHandler` that the capture logic
touches: `self.cap` (`none` = `None`, `some b` = a `VideoCapture`
object whose `isOpened()` currently returns `b`), `self.running`,
`self._current_open_attempts`, `self._current_read_failures`. -/
structure St where
  cap : Option Bool
  running : Bool
  openAttempts : Nat
  readFailures : Nat
deriving DecidableEq, Repr

/-- Events emitted on the `camera_error` signal, tagged by emission
site: `unexpectedClosed` = line 160 ("Камера неожиданно закрылась"),
`readRecovery` = line 197 (recovery started after read failures),
`openExhausted` = line 148 (could not open after N attempts),
`restartFailed` = line 61 (the terminal message emitted by the
last-resort hook `_try_system_level_restart`). -/
inductive Ev where
  | unexpectedClosed
  | readRecovery
  | openExhausted
  | restartFailed
deriving DecidableEq, Repr

/-- Exceptions that can propagate out of the capture task, tagged by
the raising call: `cap.read`, `cv2.cvtColor`, the `QImage`
construction/scaling, or an unguarded `cap.release`. -/
inductive Exn where
  | readExn
  | cvtExn
  | scaleExn
  | releaseExn
deriving DecidableEq, Repr

/-- Environment of one `_attempt_open_camera` call: whether the
release of a previously held object (line 101) raises, whether the
freshly constructed `VideoCapture` reports `isOpened()` (line 107),
and whether the release of a constructed-but-unopened object
(line 125) raises. -/
structure OpenAttemptIn where
  relRaises : Bool
  openOk : Bool
  relRaises2 : Bool
deriving DecidableEq, Repr

/-- Result of `_attempt_open_camera`: an exception propagated out of
one of its unguarded `release` calls, or a `True`/`False` return
together with the updated state. -/
inductive OpenRes where
  | raised
  | success (s : St)
  | failure (s : St)
deriving DecidableEq, Repr

/-- `_attempt_open_camera` (lines 97-127).  If `self.cap` holds an
object it is released first (this release is *not* wrapped in
`try/except`, so it can raise).  `cv2.VideoCapture` always yields an
object; if it is not opened the object is released (again unguarded)
and `False` is returned, otherwise the resolution is configured and
both failure counters are reset to zero (lines 119-120). -/
def attempt_open_camera (a : OpenAttemptIn) (s : St) : OpenRes :=
  let go : St → OpenRes := fun s1 =>
    if a.openOk then
      .success { s1 with cap := some true, openAttempts := 0, readFailures := 0 }
    else
      if a.relRaises2 then .raised
      else .failure { s1 with cap := none }
  if s.cap.isSome then
    if a.relRaises then .raised
    else go { s with cap := none }
  else go s

/-- `stop_capture` (lines 77-95): clears `running`, and if an object is
held releases it inside `try/except` (the exception, if any, is logged
and swallowed) and sets `self.cap = None`.  The `Bool` argument is
whether the underlying release raised; it never affects the result. -/
def stop_capture (_relRaises : Bool) (s : St) : St :=
  if s.cap.isSome then
    -- the try/except at lines 86-93 swallows `relRaises`
    { s with running := false, cap := none }
  else
    { s with running := false }

/-- An external `stop_capture` taking effect at an await point.
`stop_capture` never raises, so only the state changes. -/
def applyStop (stopReq : Bool) (s : St) : St :=
  if stopReq then stop_capture false s else s

/-- Environment of one iteration of the main `while self.running`
loop: whether an opened device reports itself closed at the top of the
iteration (line 156), the outcome of `cap.read` (`readOk`, or
`readRaises` when the call itself raises), whether `cv2.rotate`
succeeds (`rotOk`; its failure is caught at lines 172-179), whether
`cv2.cvtColor` and the `QImage` scaling succeed (`cvtOk`, `scaleOk`;
unguarded, lines 183-187), the environment of the recovery
`_attempt_open_camera` call (line 199), and whether an external stop
takes effect at the end of the iteration. -/
structure IterIn where
  dies : Bool
  readRaises : Bool
  readOk : Bool
  rotOk : Bool
  cvtOk : Bool
  scaleOk : Bool
  reopen : OpenAttemptIn
  stopReq : Bool
deriving DecidableEq, Repr

/-- Output of the read/transform phase of one iteration (lines
155-192): updated state, `camera_error` events, frames emitted on
`new_frame`, whether the `continue` at line 179 was taken (which skips
the recovery check), and an exception that escaped. -/
structure PhaseOut where
  s : St
  evs : List Ev
  frames : Nat
  skip : Bool
  exn : Option Exn
deriving DecidableEq, Repr

/-- Lines 155-192 of `_capture_loop`: if the handle is absent or
reports itself closed, emit the unexpected-closed event and force
`readFailures` to `MAX_READ_FAILURES` (line 161); otherwise read one
frame: `ret = True` resets `readFailures` to zero (line 166) and runs
the transform chain (rotate failure is caught and `continue`s,
cvtColor/scaling failures raise), `ret = False` increments
`readFailures` (line 191). -/
def readPhase (i : IterIn) (s : St) : PhaseOut :=
  if s.cap = some true ∧ i.dies = false then
    if i.readRaises then ⟨s, [], 0, false, some .readExn⟩
    else if i.readOk then
      let s1 := { s with readFailures := 0 }
      if i.rotOk = false then ⟨s1, [], 0, true, none⟩
      else if i.cvtOk = false then ⟨s1, [], 0, false, some .cvtExn⟩
      else if i.scaleOk = false then ⟨s1, [], 0, false, some .scaleExn⟩
      else ⟨s1, [], 1, false, none⟩
    else ⟨{ s with readFailures := s.readFailures + 1 }, [], 0, false, none⟩
  else
    let cap1 := if s.cap = some true then some false else s.cap
    ⟨{ s with cap := cap1, readFailures := MAX_READ_FAILURES },
      [.unexpectedClosed], 0, false, none⟩

/-- Output of the recovery phase: state, events, `_attempt_open_camera`
calls made, `_try_system_level_restart` calls made, escaped
exception. -/
structure RecOut where
  s : St
  evs : List Ev
  opens : Nat
  hooks : Nat
  exn : Option Exn
deriving DecidableEq, Repr

/-- Lines 194-214 of `_capture_loop`: when `readFailures` has reached
`MAX_READ_FAILURES`, emit the recovery-started event, then attempt one
reopen.  Success returns to reading (counters were reset inside
`_attempt_open_camera`).  Failure increments `openAttempts`; at
`MAX_OPEN_ATTEMPTS` the last-resort hook runs (emitting its terminal
event), `running` is cleared and the loop `break`s. -/
def recoveryPhase (a : OpenAttemptIn) (s : St) : RecOut :=
  if MAX_READ_FAILURES ≤ s.readFailures then
    match attempt_open_camera a s with
    | .raised => ⟨s, [.readRecovery], 1, 0, some .releaseExn⟩
    | .success s1 => ⟨s1, [.readRecovery], 1, 0, none⟩
    | .failure s1 =>
      let s2 := { s1 with openAttempts := s1.openAttempts + 1 }
      if MAX_OPEN_ATTEMPTS ≤ s2.openAttempts then
        ⟨{ s2 with running := false }, [.readRecovery, .restartFailed], 1, 1, none⟩
      else ⟨s2, [.readRecovery], 1, 0, none⟩
  else ⟨s, [], 0, 0, none⟩

/-- Output of one whole iteration, of the whole main loop, and of a
whole run. -/
structure Out where
  s : St
  evs : List Ev
  opens : Nat
  frames : Nat
  hooks : Nat
  exn : Option Exn
deriving DecidableEq, Repr

/-- One iteration of the main `while self.running` loop (lines
155-217): the read/transform phase, then (unless the rotate-failure
`continue` was taken or an exception escaped) the recovery phase, then
the FPS pause during which an external stop may take effect. -/
def loopStep (i : IterIn) (s : St) : Out :=
  let p := readPhase i s
  match p.exn with
  | some e => ⟨p.s, p.evs, 0, p.frames, 0, some e⟩
  | none =>
    if p.skip then ⟨applyStop i.stopReq p.s, p.evs, 0, p.frames, 0, none⟩
    else
      let r := recoveryPhase i.reopen p.s
      match r.exn with
      | some e => ⟨r.s, p.evs ++ r.evs, r.opens, p.frames, r.hooks, some e⟩
      | none => ⟨applyStop i.stopReq r.s, p.evs ++ r.evs, r.opens, p.frames, r.hooks, none⟩

/-- The main loop, driven by a finite environment trace.  The loop
stops when `running` is cleared, when an exception escapes, or when
the observed trace ends (in the last case the session is simply
observed up to that point). -/
def runLoop : List IterIn → St → Out
  | [], s => ⟨s, [], 0, 0, 0, none⟩
  | i :: is, s =>
    if s.running then
      let o := loopStep i s
      match o.exn with
      | some e => ⟨o.s, o.evs, o.opens, o.frames, o.hooks, some e⟩
      | none =>
        let r := runLoop is o.s
        ⟨r.s, o.evs ++ r.evs, o.opens + r.opens, o.frames + r.frames,
          o.hooks + r.hooks, r.exn⟩
    else ⟨s, [], 0, 0, 0, none⟩

/-- Environment of the startup phase: the initial
`_attempt_open_camera` call (line 135) and, for each iteration of the
open-retry `while` loop (lines 138-143), whether a stop takes effect
during the backoff sleep together with the attempt's environment. -/
structure StartEnv where
  first : OpenAttemptIn
  retries : List (Bool × OpenAttemptIn)
deriving DecidableEq, Repr

/-- The open-retry loop (lines 138-143): while `running` is set and
`openAttempts < MAX_OPEN_ATTEMPTS`, sleep (a stop requested during the
sleep clears `running` but the attempt of the current iteration is
still made — `running` is only re-checked by the `while` condition),
then attempt an open; failure increments `openAttempts`, success
`break`s. -/
def openRetry : List (Bool × OpenAttemptIn) → St → Out
  | [], s => ⟨s, [], 0, 0, 0, none⟩
  | (stopB, a) :: rest, s =>
    if s.running ∧ s.openAttempts < MAX_OPEN_ATTEMPTS then
      let s1 := applyStop stopB s
      match attempt_open_camera a s1 with
      | .raised => ⟨s1, [], 1, 0, 0, some .releaseExn⟩
      | .success s2 => ⟨s2, [], 1, 0, 0, none⟩
      | .failure s2 =>
        let r := openRetry rest { s2 with openAttempts := s2.openAttempts + 1 }
        ⟨r.s, r.evs, r.opens + 1, r.frames, r.hooks, r.exn⟩
    else ⟨s, [], 0, 0, 0, none⟩

/-- The startup phase of `_capture_loop` (lines 134-152): the initial
open attempt and, if it failed, the retry loop; if the camera is still
not open afterwards, emit the open-exhausted error (line 148), invoke
the last-resort hook `_try_system_level_restart` (which emits its own
terminal event, line 61), clear `running` and `return` (skipping the
main loop and its cleanup).  The `Bool` of the result is whether
control proceeds to the main loop. -/
def startupPhase (env : StartEnv) (s : St) : Out × Bool :=
  match attempt_open_camera env.first s with
  | .raised => (⟨s, [], 1, 0, 0, some .releaseExn⟩, false)
  | .success s1 => (⟨s1, [], 1, 0, 0, none⟩, true)
  | .failure s1 =>
    let r := openRetry env.retries { s1 with openAttempts := s1.openAttempts + 1 }
    match r.exn with
    | some e => (⟨r.s, r.evs, r.opens + 1, r.frames, r.hooks, some e⟩, false)
    | none =>
      if r.s.cap = some true then
        (⟨r.s, r.evs, r.opens + 1, r.frames, r.hooks, none⟩, true)
      else
        (⟨{ r.s with running := false }, r.evs ++ [.openExhausted, .restartFailed],
          r.opens + 1, r.frames, r.hooks + 1, none⟩, false)

/-- Lines 219-223 of `_capture_loop`: on normal loop exit, release the
handle if it is open (this release is unguarded and can raise) and set
`self.cap = None`. -/
def loopCleanup (relRaise : Bool) (s : St) : St × Option Exn :=
  if s.cap = some true then
    if relRaise then (s, some .releaseExn)
    else ({ s with cap := none }, none)
  else ({ s with cap := none }, none)

/-- The state `start_capture` (lines 64-75) sets up before spawning
`_capture_loop`: `running := True` and both failure counters reset. -/
def startState : St := ⟨none, true, 0, 0⟩

/-- A complete run of one `_capture_loop` task from `start_capture`:
startup phase, then (if the camera opened) the main loop, then (if the
loop exited normally with `running` cleared) the cleanup release,
whose possible exception is `cleanRel`. -/
def fullRun (senv : StartEnv) (lenv : List IterIn) (cleanRel : Bool) : Out :=
  let p := startupPhase senv startState
  if p.2 then
    let o := p.1
    let r := runLoop lenv o.s
    let c : Out := ⟨r.s, o.evs ++ r.evs, o.opens + r.opens, o.frames + r.frames,
      o.hooks + r.hooks, r.exn⟩
    match r.exn with
    | some _ => c
    | none =>
      if r.s.running then c
      else
        let q := loopCleanup cleanRel r.s
        ⟨q.1, c.evs, c.opens, c.frames, c.hooks, q.2⟩
  else p.1

/-- Number of occurrences of one event in an event trace. -/
def countEv (e : Ev) : List Ev → Nat
  | [] => 0
  | x :: xs => (if x = e then 1 else 0) + countEv e xs

/-! ## Concrete environments used as test vectors -/

/-- An open attempt that fails cleanly (device not acquired, no
release error). -/
def failA : OpenAttemptIn := ⟨false, false, false⟩

/-- An open attempt that succeeds. -/
def okA : OpenAttemptIn := ⟨false, true, false⟩

/-- The state right after a successful open. -/
def openedState : St := ⟨some true, true, 0, 0⟩

/-- An iteration whose read fails cleanly (`ret = False`), with any
needed reopen also failing cleanly. -/
def readFailIter : IterIn := ⟨false, false, false, true, true, true, failA, false⟩

/-- An iteration whose read and all transforms succeed. -/
def readOkIter : IterIn := ⟨false, false, true, true, true, true, failA, false⟩

/-! ## Claim theorems -/

/-- Claim C4: in the iteration in which a read failure brings
`readFailures` from `MAX_READ_FAILURES - 1` to `MAX_READ_FAILURES`,
exactly one recovery-started event is emitted and exactly one `open()`
call (`_attempt_open_camera`) is attempted, whatever the outcome of
that reopen. -/
theorem c4_read_threshold_one_recovery (i : IterIn) (s : St)
    (h1 : s.cap = some true) (h2 : i.dies = false) (h3 : i.readRaises = false)
    (h4 : i.readOk = false) (h5 : s.readFailures + 1 = MAX_READ_FAILURES) :
    (loopStep i s).opens = 1 ∧ countEv .readRecovery (loopStep i s).evs = 1 := by
  obtain ⟨cap, run, oa, rf⟩ := s
  have h5' : rf + 1 = 5 := h5
  have hrf : rf = 4 := by omega
  subst hrf
  simp only at h1
  subst h1
  have hrp : readPhase i ⟨some true, run, oa, 4⟩ =
      ⟨⟨some true, run, oa, 4 + 1⟩, [], 0, false, none⟩ := by
    simp [readPhase, h2, h3, h4]
  simp only [loopStep, hrp]
  cases hA : attempt_open_camera i.reopen ⟨some true, run, oa, 4 + 1⟩ with
  | raised =>
    simp [recoveryPhase, hA, countEv, MAX_READ_FAILURES]
  | success s1 =>
    simp [recoveryPhase, hA, countEv, applyStop, stop_capture, MAX_READ_FAILURES]
  | failure s1 =>
    by_cases hoa : MAX_OPEN_ATTEMPTS ≤ s1.openAttempts + 1 <;>
      simp [recoveryPhase, hA, hoa, countEv, applyStop, stop_capture,
        MAX_READ_FAILURES]

/-- Auxiliary induction for claim C5: from an open, reading state with
`readFailures = r`, a block of `M` clean read failures with
`r + M < MAX_READ_FAILURES` followed by one fully successful read
returns to the same state with `readFailures = 0`, emits no
`camera_error` event, makes no open attempt, and emits one frame. -/
theorem c5_aux : ∀ (M r a : Nat), r + M < MAX_READ_FAILURES →
    runLoop (List.replicate M readFailIter ++ [readOkIter]) ⟨some true, true, a, r⟩ =
      ⟨⟨some true, true, a, 0⟩, [], 0, 1, 0, none⟩ := by
  intro M
  induction M with
  | zero =>
    intro r a h
    simp only [List.replicate, List.nil_append]
    simp [runLoop, loopStep, readPhase, recoveryPhase, applyStop, stop_capture,
      readOkIter, failA, MAX_READ_FAILURES]
  | succ M ih =>
    intro r a h
    have h' : r + (M + 1) < 5 := h
    have hstep :
        loopStep readFailIter ⟨some true, true, a, r⟩ =
          ⟨⟨some true, true, a, r + 1⟩, [], 0, 0, 0, none⟩ := by
      have hlt : ¬ MAX_READ_FAILURES ≤ r + 1 := by
        simp only [MAX_READ_FAILURES]; omega
      simp [loopStep, readPhase, recoveryPhase, applyStop, stop_capture,
        readFailIter, failA, hlt]
    simp only [List.replicate_succ, List.cons_append, runLoop, hstep]
    have hih := ih (r + 1) a (by
      show r + 1 + M < MAX_READ_FAILURES
      simp only [MAX_READ_FAILURES]
      omega)
    simp [hih]

/-- Claim C5: `M` consecutive clean read failures with
`M < MAX_READ_FAILURES`, followed by one successful read, reset
`readFailures` to 0, attempt no reopen, and emit no `camera_error`
event at all (in particular no recovery event); the one successful
frame is emitted. -/
theorem c5_subthreshold_failures_no_recovery (M a : Nat)
    (h : M < MAX_READ_FAILURES) :
    (runLoop (List.replicate M readFailIter ++ [readOkIter])
        ⟨some true, true, a, 0⟩).s.readFailures = 0 ∧
    (runLoop (List.replicate M readFailIter ++ [readOkIter])
        ⟨some true, true, a, 0⟩).opens = 0 ∧
    (runLoop (List.replicate M readFailIter ++ [readOkIter])
        ⟨some true, true, a, 0⟩).evs = [] ∧
    (runLoop (List.replicate M readFailIter ++ [readOkIter])
        ⟨some true, true, a, 0⟩).frames = 1 := by
  have := c5_aux M 0 a (by omega)
  simp [this]

/-- Witness for claim C4 at a concrete input: the fifth consecutive
read failure. -/
theorem c4_witness :
    (loopStep readFailIter ⟨some true, true, 0, 4⟩).opens = 1 ∧
    countEv .readRecovery (loopStep readFailIter ⟨some true, true, 0, 4⟩).evs = 1 :=
  c4_read_threshold_one_recovery readFailIter ⟨some true, true, 0, 4⟩
    rfl rfl rfl rfl (by decide)

/-- Witness for claim C5 at a concrete input: three read failures then
one success. -/
theorem c5_witness :
    (runLoop (List.replicate 3 readFailIter ++ [readOkIter])
        ⟨some true, true, 1, 0⟩).s.readFailures = 0 ∧
    (runLoop (List.replicate 3 readFailIter ++ [readOkIter])
        ⟨some true, true, 1, 0⟩).opens = 0 ∧
    (runLoop (List.replicate 3 readFailIter ++ [readOkIter])
        ⟨some true, true, 1, 0⟩).evs = [] ∧
    (runLoop (List.replicate 3 readFailIter ++ [readOkIter])
        ⟨some true, true, 1, 0⟩).frames = 1 :=
  c5_subthreshold_failures_no_recovery 3 1 (by decide)

/-- An iteration whose read succeeds but whose `QImage` scaling step
raises. -/
def scaleFailIter : IterIn := ⟨false, false, true, true, true, false, failA, false⟩

/-- An iteration whose read succeeds but whose `cv2.rotate` raises. -/
def rotFailIter : IterIn := ⟨false, false, true, false, true, true, failA, false⟩

/-- Counterexample to claim C6 as stated: the claim quantifies over
every post-processing failure (rotation, colour conversion, resize),
but a failing resize/scaling step is not skipped — the exception
escapes the loop and kills the capture task while `running` is still
set.  Only the rotation step is guarded in the source (lines
172-179); `cv2.cvtColor` and the `QImage` scaling (lines 183-187) are
not. -/
theorem c6_counterexample :
    (fullRun ⟨okA, []⟩ [scaleFailIter] false).exn = some Exn.scaleExn ∧
    (fullRun ⟨okA, []⟩ [scaleFailIter] false).s.running = true := by decide

/-- Claim C6 (amended): for every frame whose *orientation rotation*
fails after a successful read, the frame is skipped (nothing emitted),
`readFailures` is not incremented, no open is attempted, and the loop
continues after a short pause, ending the iteration in exactly the
state a fully successful iteration would produce.  (Colour-conversion
and scaling failures are not soft faults in the source: they raise out
of the loop, see the counterexample.) -/
theorem c6_rotation_soft_fault (i : IterIn) (s : St)
    (h1 : s.cap = some true) (h2 : i.dies = false) (h3 : i.readRaises = false)
    (h4 : i.readOk = true) (h5 : i.rotOk = false) (h6 : i.stopReq = false) :
    loopStep i s = ⟨{ s with readFailures := 0 }, [], 0, 0, 0, none⟩ ∧
    (loopStep i s).s =
      (loopStep { i with rotOk := true, cvtOk := true, scaleOk := true } s).s := by
  have hl : loopStep i s = ⟨{ s with readFailures := 0 }, [], 0, 0, 0, none⟩ := by
    simp [loopStep, readPhase, h1, h2, h3, h4, h5, h6, applyStop]
  have hr : (loopStep { i with rotOk := true, cvtOk := true, scaleOk := true } s).s
      = { s with readFailures := 0 } := by
    simp [loopStep, readPhase, recoveryPhase, h1, h2, h3, h4, h6, applyStop,
      MAX_READ_FAILURES]
  exact ⟨hl, by rw [hl, hr]⟩

/-- Witness for claim C6 (amended) at a concrete input: a rotation
failure with three read failures accumulated. -/
theorem c6_witness :
    loopStep rotFailIter ⟨some true, true, 2, 3⟩ =
      ⟨⟨some true, true, 2, 0⟩, [], 0, 0, 0, none⟩ ∧
    (loopStep rotFailIter ⟨some true, true, 2, 3⟩).s =
      (loopStep { rotFailIter with rotOk := true, cvtOk := true, scaleOk := true }
        ⟨some true, true, 2, 3⟩).s :=
  c6_rotation_soft_fault rotFailIter ⟨some true, true, 2, 3⟩
    rfl rfl rfl rfl rfl rfl

/-- An iteration that begins with the handle absent or reporting
itself closed takes the forced-recovery route of lines 156-161. -/
theorem forced_iteration_recovers (i : IterIn) (s : St)
    (h : ¬ (s.cap = some true ∧ i.dies = false)) :
    (readPhase i s).s.readFailures = MAX_READ_FAILURES ∧
    (readPhase i s).evs = [.unexpectedClosed] ∧
    (loopStep i s).opens = 1 ∧
    countEv .unexpectedClosed (loopStep i s).evs = 1 ∧
    countEv .readRecovery (loopStep i s).evs = 1 := by
  have hrp : readPhase i s =
      ⟨{ s with cap := (if s.cap = some true then some false else s.cap),
                readFailures := 5 }, [.unexpectedClosed],
        0, false, none⟩ := by
    simp [readPhase, h, MAX_READ_FAILURES]
  refine ⟨by simp [hrp, MAX_READ_FAILURES], by simp [hrp], ?_⟩
  simp only [loopStep, hrp]
  cases hA : attempt_open_camera i.reopen
      { s with cap := (if s.cap = some true then some false else s.cap),
               readFailures := 5 } with
  | raised =>
    simp [recoveryPhase, hA, countEv, MAX_READ_FAILURES]
  | success s1 =>
    simp [recoveryPhase, hA, countEv, applyStop, stop_capture, MAX_READ_FAILURES]
  | failure s1 =>
    by_cases hoa : MAX_OPEN_ATTEMPTS ≤ s1.openAttempts + 1 <;>
      simp [recoveryPhase, hA, hoa, countEv, applyStop, stop_capture,
        MAX_READ_FAILURES]

/-- Claim C7: an iteration that begins with the handle absent or
reporting itself closed (no read is attempted) emits the
unexpected-closed event, forces `readFailures` to
`MAX_READ_FAILURES`, and thereby enters the read-failure recovery
path of the same iteration: one `open()` is attempted and the
recovery-started event is emitted. -/
theorem c7_closed_handle_forces_recovery (i : IterIn) (s : St)
    (h : ¬ (s.cap = some true ∧ i.dies = false)) :
    (readPhase i s).s.readFailures = MAX_READ_FAILURES ∧
    (readPhase i s).evs = [.unexpectedClosed] ∧
    (loopStep i s).opens = 1 ∧
    countEv .unexpectedClosed (loopStep i s).evs = 1 ∧
    countEv .readRecovery (loopStep i s).evs = 1 :=
  forced_iteration_recovers i s h

/-- Witness for claim C7 at a concrete input: the handle is absent at
the top of the iteration. -/
theorem c7_witness :
    (readPhase readFailIter ⟨none, true, 1, 2⟩).s.readFailures = MAX_READ_FAILURES ∧
    (readPhase readFailIter ⟨none, true, 1, 2⟩).evs = [.unexpectedClosed] ∧
    (loopStep readFailIter ⟨none, true, 1, 2⟩).opens = 1 ∧
    countEv .unexpectedClosed (loopStep readFailIter ⟨none, true, 1, 2⟩).evs = 1 ∧
    countEv .readRecovery (loopStep readFailIter ⟨none, true, 1, 2⟩).evs = 1 :=
  c7_closed_handle_forces_recovery readFailIter ⟨none, true, 1, 2⟩ (by decide)

/-- The boundedness invariant of claim C3: both counters stay at or
below their configured maxima. -/
def Inv (s : St) : Prop :=
  s.openAttempts ≤ MAX_OPEN_ATTEMPTS ∧ s.readFailures ≤ MAX_READ_FAILURES

instance (s : St) : Decidable (Inv s) := by
  unfold Inv; infer_instance

/-- The inductive strengthening of `Inv` that holds at the top of
every iteration of a live session: while `running` is set the
open-attempt counter is strictly below its maximum (reaching it always
clears `running`), and while the handle is open the read-failure
counter is strictly below its maximum (reaching it either reopens,
which resets it, or loses the handle). -/
def StInv (s : St) : Prop :=
  Inv s ∧ (s.running = true →
    s.openAttempts < MAX_OPEN_ATTEMPTS ∧
    (s.cap = some true → s.readFailures < MAX_READ_FAILURES))

instance (s : St) : Decidable (StInv s) := by
  unfold StInv Inv; infer_instance

/-- `_attempt_open_camera` returns `True` only with the handle open
and both counters reset (lines 119-120). -/
theorem attempt_open_success_eq (a : OpenAttemptIn) (s s1 : St)
    (h : attempt_open_camera a s = .success s1) :
    s1 = { s with cap := some true, openAttempts := 0, readFailures := 0 } := by
  unfold attempt_open_camera at h
  repeat' split at h
  all_goals simp_all

/-- `_attempt_open_camera` returns `False` only with the handle
released and the counters untouched. -/
theorem attempt_open_failure_eq (a : OpenAttemptIn) (s s1 : St)
    (h : attempt_open_camera a s = .failure s1) :
    s1 = { s with cap := none } := by
  unfold attempt_open_camera at h
  repeat' split at h
  all_goals simp_all

/-- An external stop either leaves the state alone or clears `running`
and the handle, leaving both counters untouched. -/
theorem applyStop_cases (b : Bool) (s : St) :
    applyStop b s = s ∨
    applyStop b s = ⟨none, false, s.openAttempts, s.readFailures⟩ := by
  unfold applyStop stop_capture
  split
  · right
    split
    · rfl
    · cases hc : s.cap with
      | none => simp
      | some c => simp_all
  · left; rfl

/-- The read phase never touches `openAttempts` or `running`, keeps
`readFailures` within its bound, and resets `readFailures` on the
rotate-failure `continue` path. -/
theorem readPhase_post (i : IterIn) (s : St)
    (hrf : s.readFailures ≤ MAX_READ_FAILURES)
    (hcap : s.cap = some true → s.readFailures < MAX_READ_FAILURES) :
    (readPhase i s).s.readFailures ≤ MAX_READ_FAILURES ∧
    (readPhase i s).s.openAttempts = s.openAttempts ∧
    (readPhase i s).s.running = s.running ∧
    ((readPhase i s).skip = true → (readPhase i s).s.readFailures = 0) ∧
    ((readPhase i s).exn.isSome = true →
      (readPhase i s).s.cap = s.cap ∧
      (readPhase i s).s.readFailures ≤ s.readFailures) := by
  unfold readPhase
  split
  · rename_i hc
    have h5 := hcap hc.1
    repeat' split
    all_goals simp_all
    all_goals omega
  · simp

/-- The recovery phase keeps both counters within bounds and, when it
does not raise, re-establishes the per-iteration invariant conditions
for the state it returns. -/
theorem recoveryPhase_post (a : OpenAttemptIn) (s : St)
    (hoa : s.openAttempts < MAX_OPEN_ATTEMPTS)
    (hrf : s.readFailures ≤ MAX_READ_FAILURES) :
    Inv ((recoveryPhase a s).s) ∧
    ((recoveryPhase a s).exn = none →
      ((recoveryPhase a s).s.running = true →
        (recoveryPhase a s).s.openAttempts < MAX_OPEN_ATTEMPTS ∧
        ((recoveryPhase a s).s.cap = some true →
          (recoveryPhase a s).s.readFailures < MAX_READ_FAILURES))) := by
  by_cases hg : MAX_READ_FAILURES ≤ s.readFailures
  · cases hA : attempt_open_camera a s with
    | raised =>
      simp only [recoveryPhase, hg, if_true, hA]
      exact ⟨⟨le_of_lt hoa, hrf⟩, by simp⟩
    | success s1 =>
      have he := attempt_open_success_eq a s s1 hA
      subst he
      simp only [recoveryPhase, hg, if_true, hA]
      simp [Inv, MAX_OPEN_ATTEMPTS, MAX_READ_FAILURES]
    | failure s1 =>
      have he := attempt_open_failure_eq a s s1 hA
      subst he
      simp only [recoveryPhase, hg, if_true, hA]
      by_cases hx : MAX_OPEN_ATTEMPTS ≤ s.openAttempts + 1 <;>
        simp only [MAX_OPEN_ATTEMPTS, MAX_READ_FAILURES] at * <;>
        simp [hx, Inv, MAX_OPEN_ATTEMPTS, MAX_READ_FAILURES] <;>
        omega
  · simp only [recoveryPhase, hg, if_false]
    refine ⟨⟨le_of_lt hoa, hrf⟩, fun _ hr2 => ⟨hoa, fun _ => ?_⟩⟩
    omega

/-- One loop iteration keeps both counters within bounds, and — as
long as no exception killed the task — re-establishes the full
iteration invariant. -/
theorem loopStep_preserves (i : IterIn) (s : St) (hr : s.running = true)
    (h : StInv s) :
    Inv ((loopStep i s).s) ∧
      ((loopStep i s).exn = none → StInv ((loopStep i s).s)) := by
  obtain ⟨⟨hb1, hb2⟩, hrun⟩ := h
  obtain ⟨hoa, hcap⟩ := hrun hr
  have hp := readPhase_post i s hb2 hcap
  obtain ⟨hp1, hp2, hp3, hp4, hp5⟩ := hp
  unfold loopStep
  cases hpe : (readPhase i s).exn with
  | some e =>
    simp only [hpe]
    exact ⟨⟨hp2 ▸ le_of_lt hoa, hp1⟩, by simp⟩
  | none =>
    simp only [hpe]
    by_cases hsk : (readPhase i s).skip
    · simp only [hsk, if_true]
      rcases applyStop_cases i.stopReq (readPhase i s).s with hAs | hAs <;>
        rw [hAs]
      · refine ⟨⟨hp2 ▸ le_of_lt hoa, hp1⟩, fun _ => ⟨⟨hp2 ▸ le_of_lt hoa, hp1⟩, ?_⟩⟩
        intro hrun2
        rw [hp2]
        exact ⟨hoa, fun _ => (hp4 hsk) ▸ (by simp [MAX_READ_FAILURES])⟩
      · exact ⟨⟨hp2 ▸ le_of_lt hoa, hp1⟩,
          fun _ => ⟨⟨hp2 ▸ le_of_lt hoa, hp1⟩, by simp⟩⟩
    · simp only [hsk, if_false]
      have hrec := recoveryPhase_post i.reopen (readPhase i s).s
        (hp2 ▸ hoa) hp1
      obtain ⟨hr1, hr2⟩ := hrec
      cases hre : (recoveryPhase i.reopen (readPhase i s).s).exn with
      | some e =>
        simp only [hre]
        exact ⟨hr1, by simp⟩
      | none =>
        simp only [hre]
        have hr3 := hr2 hre
        rcases applyStop_cases i.stopReq (recoveryPhase i.reopen (readPhase i s).s).s
          with hAs | hAs <;> rw [hAs]
        · exact ⟨hr1, fun _ => ⟨hr1, hr3⟩⟩
        · exact ⟨⟨hr1.1, hr1.2⟩, fun _ => ⟨⟨hr1.1, hr1.2⟩, by simp⟩⟩

/-- The whole main loop keeps both counters within bounds and, absent
an escaped exception, preserves the iteration invariant. -/
theorem runLoop_preserves (env : List IterIn) : ∀ s : St, StInv s →
    Inv ((runLoop env s).s) ∧
      ((runLoop env s).exn = none → StInv ((runLoop env s).s)) := by
  induction env with
  | nil =>
    intro s h
    exact ⟨h.1, fun _ => h⟩
  | cons i is ih =>
    intro s h
    by_cases hr : s.running = true
    · have hstep := loopStep_preserves i s hr h
      cases hexn : (loopStep i s).exn with
      | some e =>
        simp only [runLoop, hr, if_true, hexn]
        exact ⟨hstep.1, by simp⟩
      | none =>
        have hrest := ih _ (hstep.2 hexn)
        simp only [runLoop, hr, if_true, hexn]
        exact hrest
    · have hr2 : s.running = false := by
        cases hb : s.running
        · rfl
        · exact absurd hb hr
      simp only [runLoop, hr2]
      exact ⟨h.1, fun _ => h⟩

/-- The startup open-retry loop keeps `readFailures` at zero and
`openAttempts` bounded; it ends with an open handle only via a
successful `_attempt_open_camera`, whose state has both counters
reset; and it can raise only from inside an attempt made while
`openAttempts` was still below the maximum. -/
theorem openRetry_props (env : List (Bool × OpenAttemptIn)) : ∀ s : St,
    s.cap = none → s.readFailures = 0 → s.openAttempts ≤ MAX_OPEN_ATTEMPTS →
    (openRetry env s).s.readFailures = 0 ∧
    (openRetry env s).s.openAttempts ≤ MAX_OPEN_ATTEMPTS ∧
    ((openRetry env s).s.cap = some true → (openRetry env s).s.openAttempts = 0) ∧
    ((openRetry env s).exn ≠ none →
      (openRetry env s).s.openAttempts < MAX_OPEN_ATTEMPTS ∧
      (openRetry env s).s.cap = none) ∧
    (openRetry env s).evs = [] ∧ (openRetry env s).hooks = 0 ∧
    ((openRetry env s).s.cap = some true ∨ (openRetry env s).s.cap = none) := by
  induction env with
  | nil =>
    intro s h1 h2 h3
    exact ⟨h2, h3, fun hc => absurd (h1 ▸ hc) (by simp),
      fun hx => absurd rfl hx, rfl, rfl, Or.inr h1⟩
  | cons p rest ih =>
    obtain ⟨stopB, a⟩ := p
    intro s h1 h2 h3
    by_cases hg : (s.running = true ∧ s.openAttempts < MAX_OPEN_ATTEMPTS)
    case neg =>
      have hstep : openRetry ((stopB, a) :: rest) s = ⟨s, [], 0, 0, 0, none⟩ := by
        simp only [openRetry]
        rw [if_neg hg]
      rw [hstep]
      exact ⟨h2, h3, fun hc => absurd (h1 ▸ hc) (by simp),
        fun hx => absurd rfl hx, rfl, rfl, Or.inr h1⟩
    case pos =>
      have hs1c : (applyStop stopB s).cap = none := by
        rcases applyStop_cases stopB s with hB | hB <;> simp [hB, h1]
      have hs1r : (applyStop stopB s).readFailures = s.readFailures := by
        rcases applyStop_cases stopB s with hB | hB <;> rw [hB]
      have hs1o : (applyStop stopB s).openAttempts = s.openAttempts := by
        rcases applyStop_cases stopB s with hB | hB <;> rw [hB]
      cases hA : attempt_open_camera a (applyStop stopB s) with
      | raised =>
        have hstep : openRetry ((stopB, a) :: rest) s =
            ⟨applyStop stopB s, [], 1, 0, 0, some .releaseExn⟩ := by
          simp only [openRetry, hA]
          rw [if_pos hg]
        rw [hstep]
        refine ⟨by rw [hs1r]; exact h2, by rw [hs1o]; exact h3,
          fun hc => absurd (hs1c ▸ hc) (by simp),
          fun _ => ⟨by rw [hs1o]; exact hg.2, hs1c⟩, rfl, rfl, Or.inr hs1c⟩
      | success s2 =>
        have he := attempt_open_success_eq a _ s2 hA
        have hstep : openRetry ((stopB, a) :: rest) s =
            ⟨s2, [], 1, 0, 0, none⟩ := by
          simp only [openRetry, hA]
          rw [if_pos hg]
        rw [hstep, he]
        exact ⟨rfl, by simp [MAX_OPEN_ATTEMPTS], fun _ => rfl,
          fun hx => absurd rfl hx, rfl, rfl, Or.inl rfl⟩
      | failure s2 =>
        have he := attempt_open_failure_eq a _ s2 hA
        subst he
        have hstep : openRetry ((stopB, a) :: rest) s =
            ⟨(openRetry rest (⟨none, (applyStop stopB s).running,
                (applyStop stopB s).openAttempts + 1,
                (applyStop stopB s).readFailures⟩ : St)).s,
             (openRetry rest (⟨none, (applyStop stopB s).running,
                (applyStop stopB s).openAttempts + 1,
                (applyStop stopB s).readFailures⟩ : St)).evs,
             (openRetry rest (⟨none, (applyStop stopB s).running,
                (applyStop stopB s).openAttempts + 1,
                (applyStop stopB s).readFailures⟩ : St)).opens + 1,
             (openRetry rest (⟨none, (applyStop stopB s).running,
                (applyStop stopB s).openAttempts + 1,
                (applyStop stopB s).readFailures⟩ : St)).frames,
             (openRetry rest (⟨none, (applyStop stopB s).running,
                (applyStop stopB s).openAttempts + 1,
                (applyStop stopB s).readFailures⟩ : St)).hooks,
             (openRetry rest (⟨none, (applyStop stopB s).running,
                (applyStop stopB s).openAttempts + 1,
                (applyStop stopB s).readFailures⟩ : St)).exn⟩ := by
          simp only [openRetry, hA]
          rw [if_pos hg]
        rw [hstep]
        have hrec := ih
          (⟨none, (applyStop stopB s).running,
            (applyStop stopB s).openAttempts + 1,
            (applyStop stopB s).readFailures⟩ : St)
          rfl (by show (applyStop stopB s).readFailures = 0; rw [hs1r]; exact h2)
          (by show (applyStop stopB s).openAttempts + 1 ≤ MAX_OPEN_ATTEMPTS
              rw [hs1o]
              have h4 := hg.2
              simp only [MAX_OPEN_ATTEMPTS] at *
              omega)
        exact hrec

/-- The startup phase always produces a state satisfying the
iteration invariant, and hands control to the main loop only with
both counters at zero and no pending exception. -/
theorem startupPhase_post (senv : StartEnv) :
    StInv ((startupPhase senv startState).1.s) ∧
    ((startupPhase senv startState).2 = true →
      (startupPhase senv startState).1.s.openAttempts = 0 ∧
      (startupPhase senv startState).1.s.readFailures = 0 ∧
      (startupPhase senv startState).1.exn = none) := by
  cases hA : attempt_open_camera senv.first startState with
  | raised =>
    have hstep : startupPhase senv startState =
        (⟨startState, [], 1, 0, 0, some .releaseExn⟩, false) := by
      simp only [startupPhase, hA]
    rw [hstep]
    exact ⟨by decide, by simp⟩
  | success s1 =>
    have he := attempt_open_success_eq senv.first _ s1 hA
    subst he
    have hstep : startupPhase senv startState =
        (⟨⟨some true, startState.running, 0, 0⟩, [], 1, 0, 0, none⟩, true) := by
      simp only [startupPhase, hA]
    rw [hstep]
    exact ⟨by decide, fun _ => ⟨rfl, rfl, rfl⟩⟩
  | failure s1 =>
    have he := attempt_open_failure_eq senv.first _ s1 hA
    subst he
    have hrec := openRetry_props senv.retries
      (⟨none, startState.running, startState.openAttempts + 1,
        startState.readFailures⟩ : St) rfl rfl (by decide)
    obtain ⟨q1, q2, q3, q4, q5, q6, q7⟩ := hrec
    cases hexn : (openRetry senv.retries
        (⟨none, startState.running, startState.openAttempts + 1,
          startState.readFailures⟩ : St)).exn with
    | some e =>
      have hq4 := q4 (by rw [hexn]; simp)
      simp only [startupPhase, hA, hexn]
      refine ⟨⟨⟨q2, by rw [q1]; simp [MAX_READ_FAILURES]⟩, ?_⟩, by simp⟩
      intro _
      refine ⟨hq4.1, fun hc => absurd (hq4.2 ▸ hc) (by simp)⟩
    | none =>
      by_cases hcap : (openRetry senv.retries
          (⟨none, startState.running, startState.openAttempts + 1,
            startState.readFailures⟩ : St)).s.cap = some true
      · simp only [startupPhase, hA, hexn]
        rw [if_pos hcap]
        have h0 := q3 hcap
        refine ⟨⟨⟨q2, by rw [q1]; simp [MAX_READ_FAILURES]⟩, ?_⟩, ?_⟩
        · intro _
          exact ⟨by rw [h0]; simp [MAX_OPEN_ATTEMPTS],
            fun _ => by rw [q1]; simp [MAX_READ_FAILURES]⟩
        · intro _
          exact ⟨h0, q1, rfl⟩
      · simp only [startupPhase, hA, hexn]
        rw [if_neg hcap]
        refine ⟨⟨⟨q2, by rw [q1]; simp [MAX_READ_FAILURES]⟩, ?_⟩, by simp⟩
        intro hr
        cases hr

/-- The cleanup release at loop exit only touches the handle, never
the counters or the run flag. -/
theorem loopCleanup_counters (b : Bool) (s : St) :
    (loopCleanup b s).1.openAttempts = s.openAttempts ∧
    (loopCleanup b s).1.readFailures = s.readFailures ∧
    (loopCleanup b s).1.running = s.running := by
  unfold loopCleanup
  repeat' split
  all_goals simp

/-- If the recovery phase of an iteration entered with
`openAttempts` below the maximum leaves `openAttempts` at the
maximum, it has also cleared `running` (the exhaustion branch of
lines 206-211). -/
theorem recoveryPhase_max_halts (a : OpenAttemptIn) (s : St)
    (hoa : s.openAttempts < MAX_OPEN_ATTEMPTS)
    (hmax : (recoveryPhase a s).s.openAttempts = MAX_OPEN_ATTEMPTS) :
    (recoveryPhase a s).s.running = false := by
  simp only [MAX_OPEN_ATTEMPTS] at hoa
  by_cases hg : MAX_READ_FAILURES ≤ s.readFailures
  · cases hA : attempt_open_camera a s with
    | raised =>
      simp only [recoveryPhase, hg, if_true, hA, MAX_OPEN_ATTEMPTS] at hmax ⊢
      omega
    | success s1 =>
      have he := attempt_open_success_eq a s s1 hA
      subst he
      simp only [recoveryPhase, hg, if_true, hA] at hmax ⊢
      simp only [MAX_OPEN_ATTEMPTS] at hmax
      simp at hmax
    | failure s1 =>
      have he := attempt_open_failure_eq a s s1 hA
      subst he
      by_cases hx : MAX_OPEN_ATTEMPTS ≤ s.openAttempts + 1
      · have hstep : recoveryPhase a s =
            ⟨⟨none, false, s.openAttempts + 1, s.readFailures⟩,
              [.readRecovery, .restartFailed], 1, 1, none⟩ := by
          simp only [recoveryPhase, hA]
          rw [if_pos hg, if_pos hx]
        rw [hstep]
      · have hstep : recoveryPhase a s =
            ⟨⟨none, s.running, s.openAttempts + 1, s.readFailures⟩,
              [.readRecovery], 1, 0, none⟩ := by
          simp only [recoveryPhase, hA]
          rw [if_pos hg, if_neg hx]
        rw [hstep] at hmax
        simp only [MAX_OPEN_ATTEMPTS] at hmax hx
        exact absurd hmax (by omega)
  · simp only [recoveryPhase, hg, if_false, MAX_OPEN_ATTEMPTS] at hmax ⊢
    omega

/-- The final state of a full run is the startup state, the main-loop
state, or the main-loop state after the cleanup release. -/
theorem fullRun_state_cases (senv : StartEnv) (lenv : List IterIn) (cr : Bool) :
    (fullRun senv lenv cr).s = (startupPhase senv startState).1.s ∨
    (fullRun senv lenv cr).s =
      (runLoop lenv (startupPhase senv startState).1.s).s ∨
    (fullRun senv lenv cr).s =
      (loopCleanup cr (runLoop lenv (startupPhase senv startState).1.s).s).1 := by
  simp only [fullRun]
  split
  · split
    · right; left; rfl
    · split
      · right; left; rfl
      · right; right; rfl
  · left; rfl

/-- Claim C3: both failure counters are bounded by their configured
maxima at every reachable point of a session (the initial state
satisfies the invariant, the startup phase establishes it, and every
loop iteration preserves it — hence so does the final state of any
full run); both counters are reset to zero by every successful open;
`readFailures` is additionally reset by every successful read; and
reaching a maximum triggers the corresponding transition: a
`readFailures` at maximum makes the iteration attempt exactly one
recovery open, and an `openAttempts` that lands on its maximum always
comes with `running` cleared (the halt), never a counter growing
past. -/
theorem c3_counter_invariants :
    (∀ senv lenv cr, Inv ((fullRun senv lenv cr).s)) ∧
    (∀ i s, s.running = true → StInv s →
      Inv ((loopStep i s).s) ∧
        ((loopStep i s).exn = none → StInv ((loopStep i s).s))) ∧
    (∀ a s s1, attempt_open_camera a s = .success s1 →
      s1.openAttempts = 0 ∧ s1.readFailures = 0) ∧
    (∀ i s, s.cap = some true → i.dies = false → i.readRaises = false →
      i.readOk = true → (readPhase i s).s.readFailures = 0) ∧
    (∀ i s, s.running = true → StInv s →
      MAX_READ_FAILURES ≤ (readPhase i s).s.readFailures →
      (loopStep i s).opens = 1) ∧
    (∀ i s, s.running = true → StInv s →
      (loopStep i s).s.openAttempts = MAX_OPEN_ATTEMPTS →
      (loopStep i s).s.running = false) := by
  refine ⟨?_, fun i s hr h => loopStep_preserves i s hr h, ?_, ?_, ?_, ?_⟩
  · intro senv lenv cr
    have hs := (startupPhase_post senv).1
    have hrl := runLoop_preserves lenv _ hs
    rcases fullRun_state_cases senv lenv cr with hB | hB | hB <;> rw [hB]
    · exact hs.1
    · exact hrl.1
    · have hlc := loopCleanup_counters cr
        (runLoop lenv (startupPhase senv startState).1.s).s
      exact ⟨by rw [hlc.1]; exact hrl.1.1, by rw [hlc.2.1]; exact hrl.1.2⟩
  · intro a s s1 h
    rw [attempt_open_success_eq a s s1 h]
    exact ⟨rfl, rfl⟩
  · intro i s h1 h2 h3 h4
    simp only [readPhase, h1, h2, h3, h4]
    simp only [and_self, if_true]
    repeat' split
    all_goals simp_all
  · intro i s hr hst hmax
    by_cases hc : (s.cap = some true ∧ i.dies = false)
    · obtain ⟨hcap', hdies⟩ := hc
      have hrf5 := (hst.2 hr).2 hcap'
      cases hrr : i.readRaises with
      | true =>
        have hrp : readPhase i s = ⟨s, [], 0, false, some .readExn⟩ := by
          simp [readPhase, hcap', hdies, hrr]
        rw [hrp] at hmax
        exact absurd hmax (by
          simp only [MAX_READ_FAILURES] at *
          omega)
      | false =>
        cases hro : i.readOk with
        | true =>
          have h0 : (readPhase i s).s.readFailures = 0 := by
            simp only [readPhase, hcap', hdies, hrr, hro]
            simp only [and_self, if_true]
            repeat' split
            all_goals simp_all
          rw [h0] at hmax
          exact absurd hmax (by simp [MAX_READ_FAILURES])
        | false =>
          have hrp : readPhase i s =
              ⟨{ s with readFailures := s.readFailures + 1 }, [], 0, false,
                none⟩ := by
            simp [readPhase, hcap', hdies, hrr, hro]
          have hmax' : MAX_READ_FAILURES ≤ s.readFailures + 1 := by
            rw [hrp] at hmax
            exact hmax
          simp only [loopStep, hrp]
          cases hA : attempt_open_camera i.reopen
              { s with readFailures := s.readFailures + 1 } with
          | raised => simp [recoveryPhase, hA, hmax']
          | success s2 =>
            simp [recoveryPhase, hA, hmax', applyStop, stop_capture]
          | failure s2 =>
            by_cases hx : MAX_OPEN_ATTEMPTS ≤ s2.openAttempts + 1 <;>
              simp [recoveryPhase, hA, hmax', hx, applyStop, stop_capture]
    · exact (forced_iteration_recovers i s hc).2.2.1
  · intro i s hr hst hmax
    obtain ⟨ho, hcapx⟩ := hst.2 hr
    have hp := readPhase_post i s hst.1.2 hcapx
    cases hpe : (readPhase i s).exn with
    | some e =>
      have hoaeq : (loopStep i s).s.openAttempts = s.openAttempts := by
        simp only [loopStep, hpe]
        exact hp.2.1
      rw [hoaeq] at hmax
      exact absurd hmax (by
        simp only [MAX_OPEN_ATTEMPTS] at *
        omega)
    | none =>
      by_cases hsk : (readPhase i s).skip = true
      · rcases applyStop_cases i.stopReq (readPhase i s).s with hB | hB
        · have hse : (loopStep i s).s = (readPhase i s).s := by
            simp only [loopStep, hpe, hsk, if_true]
            rw [hB]
          rw [hse] at hmax
          rw [hp.2.1] at hmax
          exact absurd hmax (by
            simp only [MAX_OPEN_ATTEMPTS] at *
            omega)
        · simp only [loopStep, hpe, hsk, if_true]
          rw [hB]
      · have hskf : (readPhase i s).skip = false := by
          revert hsk
          cases (readPhase i s).skip <;> simp
        have hrm := recoveryPhase_max_halts i.reopen (readPhase i s).s
          (by rw [hp.2.1]; exact ho)
        cases hre : (recoveryPhase i.reopen (readPhase i s).s).exn with
        | some e =>
          have hse : (loopStep i s).s =
              (recoveryPhase i.reopen (readPhase i s).s).s := by
            simp only [loopStep, hpe, hskf, hre, Bool.false_eq_true, if_false]
          rw [hse] at hmax ⊢
          exact hrm hmax
        | none =>
          rcases applyStop_cases i.stopReq
              (recoveryPhase i.reopen (readPhase i s).s).s with hB | hB
          · have hse : (loopStep i s).s =
                (recoveryPhase i.reopen (readPhase i s).s).s := by
              simp only [loopStep, hpe, hskf, hre, Bool.false_eq_true, if_false]
              rw [hB]
            rw [hse] at hmax ⊢
            exact hrm hmax
          · simp only [loopStep, hpe, hskf, hre, Bool.false_eq_true, if_false]
            rw [hB]

/-- Witness for claim C3 at concrete inputs: a full run (successful
open then one read failure) and one successful-read iteration. -/
theorem c3_witness :
    Inv ((fullRun ⟨okA, []⟩ [readFailIter] false).s) ∧
    (Inv ((loopStep readOkIter openedState).s) ∧
      ((loopStep readOkIter openedState).exn = none →
        StInv ((loopStep readOkIter openedState).s))) :=
  ⟨c3_counter_invariants.1 ⟨okA, []⟩ [readFailIter] false,
   c3_counter_invariants.2.1 readOkIter openedState rfl (by decide)⟩

/-- An open-attempt environment in which the unguarded `release`
calls inside `_attempt_open_camera` do not raise. -/
def tameOpen (a : OpenAttemptIn) : Prop :=
  a.relRaises = false ∧ a.relRaises2 = false

instance (a : OpenAttemptIn) : Decidable (tameOpen a) := by
  unfold tameOpen; infer_instance

/-- An iteration environment exhibiting only the failure modes the
loop actually guards against: read failures reported through `ret`,
rotate exceptions, device deaths, open failures and external stops —
but no exception from the read call itself, the colour conversion,
the scaling, or a release. -/
def tameIter (i : IterIn) : Prop :=
  i.readRaises = false ∧ i.cvtOk = true ∧ i.scaleOk = true ∧ tameOpen i.reopen

instance (i : IterIn) : Decidable (tameIter i) := by
  unfold tameIter; infer_instance

/-- `_attempt_open_camera` can raise only out of one of its two
unguarded `release` calls. -/
theorem attempt_open_no_raise (a : OpenAttemptIn) (s : St) (h : tameOpen a) :
    attempt_open_camera a s ≠ .raised := by
  obtain ⟨h1, h2⟩ := h
  unfold attempt_open_camera
  repeat' split
  all_goals simp_all

/-- The read phase raises only from the read call, the colour
conversion or the scaling. -/
theorem readPhase_tame (i : IterIn) (s : St) (h1 : i.readRaises = false)
    (h2 : i.cvtOk = true) (h3 : i.scaleOk = true) :
    (readPhase i s).exn = none := by
  unfold readPhase
  repeat' split
  all_goals simp_all

/-- The recovery phase raises only out of the reopen attempt. -/
theorem recoveryPhase_tame (a : OpenAttemptIn) (s : St) (h : tameOpen a) :
    (recoveryPhase a s).exn = none := by
  by_cases hg : MAX_READ_FAILURES ≤ s.readFailures
  · cases hA : attempt_open_camera a s with
    | raised => exact absurd hA (attempt_open_no_raise a s h)
    | success s1 =>
      simp only [recoveryPhase, hA]
      rw [if_pos hg]
    | failure s1 =>
      simp only [recoveryPhase, hA]
      rw [if_pos hg]
      split <;> rfl
  · simp only [recoveryPhase]
    rw [if_neg hg]
  
/-- Under a tame iteration environment no exception escapes one loop
iteration. -/
theorem loopStep_tame (i : IterIn) (s : St) (h : tameIter i) :
    (loopStep i s).exn = none := by
  obtain ⟨h1, h2, h3, h4⟩ := h
  have hpe := readPhase_tame i s h1 h2 h3
  simp only [loopStep, hpe]
  split
  · rfl
  · have hre := recoveryPhase_tame i.reopen (readPhase i s).s h4
    simp only [hre]

/-- Under a tame trace no exception escapes the main loop. -/
theorem runLoop_tame (env : List IterIn) : ∀ s : St,
    (∀ i ∈ env, tameIter i) → (runLoop env s).exn = none := by
  induction env with
  | nil => intro s _; rfl
  | cons i is ih =>
    intro s h
    by_cases hr : s.running = true
    · have hstp := loopStep_tame i s (h i (List.mem_cons_self i is))
      simp only [runLoop]
      rw [if_pos hr]
      simp only [hstp]
      exact ih _ (fun j hj => h j (List.mem_cons_of_mem i hj))
    · simp only [runLoop]
      rw [if_neg hr]

/-- A startup phase whose open attempts have tame release behaviour
never raises. -/
theorem startupPhase_tame (senv : StartEnv)
    (h1 : tameOpen senv.first) (h2 : ∀ p ∈ senv.retries, tameOpen p.2) :
    (startupPhase senv startState).1.exn = none := by
  have hor : ∀ (env : List (Bool × OpenAttemptIn)),
      (∀ p ∈ env, tameOpen p.2) → ∀ s : St, (openRetry env s).exn = none := by
    intro env
    induction env with
    | nil => intro _ s; rfl
    | cons p rest ih =>
      obtain ⟨stopB, a⟩ := p
      intro h s
      by_cases hg : (s.running = true ∧ s.openAttempts < MAX_OPEN_ATTEMPTS)
      · cases hA : attempt_open_camera a (applyStop stopB s) with
        | raised =>
          exact absurd hA
            (attempt_open_no_raise a _ (h _ (List.mem_cons_self _ _)))
        | success s2 =>
          simp only [openRetry, hA]
          rw [if_pos hg]
        | failure s2 =>
          simp only [openRetry, hA]
          rw [if_pos hg]
          exact ih (fun q hq => h q (List.mem_cons_of_mem _ hq)) _
      · simp only [openRetry]
        rw [if_neg hg]
  cases hA : attempt_open_camera senv.first startState with
  | raised => exact absurd hA (attempt_open_no_raise senv.first startState h1)
  | success s1 =>
    simp only [startupPhase, hA]
  | failure s1 =>
    simp only [startupPhase, hA]
    have hr := hor senv.retries h2 { s1 with openAttempts := s1.openAttempts + 1 }
    simp only [hr]
    split <;> rfl

/-- The cleanup release cannot raise when the underlying release does
not. -/
theorem loopCleanup_false_exn (s : St) : (loopCleanup false s).2 = none := by
  unfold loopCleanup
  repeat' split
  all_goals simp_all

/-- The exception of a full run is the startup exception, the
main-loop exception, or the cleanup exception. -/
theorem fullRun_exn_cases (senv : StartEnv) (lenv : List IterIn) (cr : Bool) :
    (fullRun senv lenv cr).exn = (startupPhase senv startState).1.exn ∨
    (fullRun senv lenv cr).exn =
      (runLoop lenv (startupPhase senv startState).1.s).exn ∨
    (fullRun senv lenv cr).exn =
      (loopCleanup cr (runLoop lenv (startupPhase senv startState).1.s).s).2 := by
  simp only [fullRun]
  split
  · split
    · right; left; rfl
    · split
      · right; left; rfl
      · right; right; rfl
  · left; rfl

/-- An iteration whose read succeeds but whose `cv2.cvtColor` raises. -/
def cvtFailIter : IterIn := ⟨false, false, true, true, false, true, failA, false⟩

/-- Counterexample to claim C2 as stated: a BGR-to-RGB colour
conversion failure on a successfully read frame is not turned into a
classified outcome — the exception escapes the capture loop and kills
the task.  Only the rotation is wrapped in `try/except` in the source
(lines 172-179); `cv2.cvtColor` (line 183) and the `QImage` scaling
(lines 186-187) are executed bare, as is the `cap.read` call itself
(line 163). -/
theorem c2_counterexample :
    (fullRun ⟨okA, []⟩ [cvtFailIter] false).exn = some Exn.cvtExn := by decide

/-- Claim C2 (amended): failures reported through return values
(open failures, `ret = False` reads), device deaths, rotation
exceptions and external stops are all handled inside the loop; no
exception escapes any part of a run — startup retries, loop
iterations, cleanup — provided the read call, the colour conversion,
the scaling and the release calls do not themselves raise.  (If one
of those four raises, the exception propagates out of the loop
uncaught; see the counterexample.) -/
theorem c2_only_guarded_sites_handled (senv : StartEnv) (lenv : List IterIn)
    (h1 : tameOpen senv.first) (h2 : ∀ p ∈ senv.retries, tameOpen p.2)
    (h3 : ∀ i ∈ lenv, tameIter i) :
    (fullRun senv lenv false).exn = none ∧
    (∀ i s, tameIter i → (loopStep i s).exn = none) := by
  constructor
  · rcases fullRun_exn_cases senv lenv false with hB | hB | hB <;> rw [hB]
    · exact startupPhase_tame senv h1 h2
    · exact runLoop_tame lenv _ h3
    · exact loopCleanup_false_exn _
  · exact fun i s h => loopStep_tame i s h

/-- Witness for claim C2 (amended) at a concrete input: a run with a
failed open retry, a device death, read failures and a rotation
failure — nothing escapes. -/
theorem c2_witness :
    (fullRun ⟨failA, [(false, okA)]⟩
      [readFailIter, rotFailIter, readOkIter] false).exn = none :=
  (c2_only_guarded_sites_handled ⟨failA, [(false, okA)]⟩
    [readFailIter, rotFailIter, readOkIter]
    (by decide) (by decide) (by decide)).1

/-- `stop_capture` always ends with `running` cleared and no handle,
whatever the release outcome was (lines 82-95). -/
theorem stop_capture_eq (b : Bool) (s : St) :
    stop_capture b s = ⟨none, false, s.openAttempts, s.readFailures⟩ := by
  unfold stop_capture
  split
  · rfl
  · rename_i hns
    cases hc : s.cap with
    | none => rfl
    | some c => rw [hc] at hns; simp at hns

/-- An iteration whose device dies at the top and whose recovery
reopen hits a raising `release` of the stale handle. -/
def relRaiseIter : IterIn :=
  ⟨true, false, false, true, true, true, ⟨true, false, false⟩, false⟩

/-- Counterexample to claim C8 as stated: the release calls at the
reopen site (`_attempt_open_camera`, lines 100-101 and 124-126) and
at the loop-exit cleanup (line 222) are *not* guarded; an error
raised by the underlying release there propagates to the capture
loop, so it is not true that every release call site logs and
swallows release errors.  Only `stop_capture` (lines 86-93) wraps the
release in `try/except`. -/
theorem c8_counterexample :
    (loopStep relRaiseIter openedState).exn = some Exn.releaseExn ∧
    (loopCleanup true openedState).2 = some Exn.releaseExn := by decide

/-- Claim C8 (amended): the release at the *stop* site is idempotent,
safe when no handle is held, and never propagates — any release error
is swallowed and does not even affect the resulting state; but the
release calls at the reopen site and at the loop-exit cleanup are
unguarded, and an error there surfaces as an exception to the capture
loop. -/
theorem c8_release_stop_site_only :
    (∀ b1 b2 s, stop_capture b2 (stop_capture b1 s) = stop_capture b1 s) ∧
    (∀ b1 b2 s, stop_capture b1 s = stop_capture b2 s) ∧
    (∀ b s, (stop_capture b s).running = false ∧ (stop_capture b s).cap = none) ∧
    (∀ a s, s.cap.isSome = true → a.relRaises = true →
      attempt_open_camera a s = .raised) ∧
    (∀ s, s.cap = some true → (loopCleanup true s).2 = some Exn.releaseExn) := by
  refine ⟨?_, ?_, ?_, ?_, ?_⟩
  · intro b1 b2 s
    rw [stop_capture_eq, stop_capture_eq]
  · intro b1 b2 s
    rw [stop_capture_eq, stop_capture_eq]
  · intro b s
    rw [stop_capture_eq]
    exact ⟨rfl, rfl⟩
  · intro a s h1 h2
    unfold attempt_open_camera
    rw [h1, h2]
    rfl
  · intro s h
    unfold loopCleanup
    rw [h]
    rfl

/-- Witness for claim C8 (amended) at concrete inputs: a raising
release during a reopen with a held handle propagates. -/
theorem c8_witness :
    attempt_open_camera ⟨true, false, false⟩ openedState = .raised ∧
    (loopCleanup true openedState).2 = some Exn.releaseExn :=
  ⟨c8_release_stop_site_only.2.2.2.1 ⟨true, false, false⟩ openedState
      (by decide) rfl,
   c8_release_stop_site_only.2.2.2.2 openedState (by decide)⟩

/-- The observable system state for the `start()` control surface: the
handler state plus the number of `_capture_loop` tasks currently
scheduled and not yet finished.  `asyncio.create_task` at line 74
unconditionally schedules one more task; a task only ends when its
loop exits, and nothing in `start_capture` stops a loop that is
already running. -/
structure Sys where
  st : St
  liveLoops : Nat
deriving DecidableEq, Repr

/-- `start_capture` (lines 64-75): sets `running := True`, resets both
failure counters, and schedules one more `_capture_loop` task. -/
def start_capture (sys : Sys) : Sys :=
  ⟨⟨sys.st.cap, true, 0, 0⟩, sys.liveLoops + 1⟩

/-- A stopped system with no scheduled loop task. -/
def idleSys : Sys := ⟨⟨none, false, 0, 0⟩, 0⟩

/-- Counterexample to claim C9 as stated: calling `start()` twice is
not idempotent — the second call, made while the session is already
running, schedules a *second* `_capture_loop` task (line 74 runs
unconditionally and the first task is never stopped, since `running`
stays `True`), so the system ends with two concurrently running
capture loops, not the one-running-loop state a single `start()`
produces. -/
theorem c9_counterexample :
    start_capture (start_capture idleSys) ≠ start_capture idleSys ∧
    (start_capture (start_capture idleSys)).liveLoops = 2 ∧
    (start_capture idleSys).liveLoops = 1 := by decide

/-- Claim C9 (amended): calling `start()` while the session is already
running does reset both failure counters to zero and leaves the
running flag set, but it is not idempotent: it spawns one additional
capture-loop task on top of the ones already running. -/
theorem c9_restart_resets_but_spawns (sys : Sys) :
    (start_capture sys).st.running = true ∧
    (start_capture sys).st.openAttempts = 0 ∧
    (start_capture sys).st.readFailures = 0 ∧
    (start_capture sys).liveLoops = sys.liveLoops + 1 :=
  ⟨rfl, rfl, rfl, rfl⟩

/-- An open attempt whose device acquisition fails and whose release
of the unopened object does not raise. -/
def failOpen (a : OpenAttemptIn) : Prop :=
  a.openOk = false ∧ a.relRaises2 = false

instance (a : OpenAttemptIn) : Decidable (failOpen a) := by
  unfold failOpen; infer_instance

/-- On a state with no held handle, a cleanly failing attempt returns
`False` and leaves the handle absent. -/
theorem attempt_open_fail (a : OpenAttemptIn) (s : St) (h : failOpen a)
    (hc : s.cap = none) :
    attempt_open_camera a s = .failure { s with cap := none } := by
  unfold attempt_open_camera
  rw [hc]
  simp [h.1, h.2]

/-- Once `running` is cleared, the open-retry loop does nothing. -/
theorem openRetry_notRunning (env : List (Bool × OpenAttemptIn)) (s : St)
    (h : s.running = false) : openRetry env s = ⟨s, [], 0, 0, 0, none⟩ := by
  cases env with
  | nil => rfl
  | cons p rest =>
    obtain ⟨b, a⟩ := p
    simp only [openRetry]
    rw [if_neg (by simp [h])]

/-- When every retry attempt fails cleanly, the open-retry loop never
raises, never acquires a handle, emits nothing and never calls the
last-resort hook — whatever the stop flags are and however long the
retry environment is. -/
theorem openRetry_allFail (env : List (Bool × OpenAttemptIn)) : ∀ s : St,
    (∀ p ∈ env, failOpen p.2) → s.cap = none →
    (openRetry env s).exn = none ∧ (openRetry env s).s.cap = none ∧
    (openRetry env s).evs = [] ∧ (openRetry env s).hooks = 0 := by
  induction env with
  | nil =>
    intro s _ hc
    exact ⟨rfl, hc, rfl, rfl⟩
  | cons p rest ih =>
    obtain ⟨stopB, a⟩ := p
    intro s h hc
    by_cases hg : (s.running = true ∧ s.openAttempts < MAX_OPEN_ATTEMPTS)
    · have hs1c : (applyStop stopB s).cap = none := by
        rcases applyStop_cases stopB s with hB | hB <;> simp [hB, hc]
      have hA := attempt_open_fail a (applyStop stopB s)
        (h _ (List.mem_cons_self _ _)) hs1c
      have hstep : openRetry ((stopB, a) :: rest) s =
          ⟨(openRetry rest (⟨none, (applyStop stopB s).running,
              (applyStop stopB s).openAttempts + 1,
              (applyStop stopB s).readFailures⟩ : St)).s,
           (openRetry rest (⟨none, (applyStop stopB s).running,
              (applyStop stopB s).openAttempts + 1,
              (applyStop stopB s).readFailures⟩ : St)).evs,
           (openRetry rest (⟨none, (applyStop stopB s).running,
              (applyStop stopB s).openAttempts + 1,
              (applyStop stopB s).readFailures⟩ : St)).opens + 1,
           (openRetry rest (⟨none, (applyStop stopB s).running,
              (applyStop stopB s).openAttempts + 1,
              (applyStop stopB s).readFailures⟩ : St)).frames,
           (openRetry rest (⟨none, (applyStop stopB s).running,
              (applyStop stopB s).openAttempts + 1,
              (applyStop stopB s).readFailures⟩ : St)).hooks,
           (openRetry rest (⟨none, (applyStop stopB s).running,
              (applyStop stopB s).openAttempts + 1,
              (applyStop stopB s).readFailures⟩ : St)).exn⟩ := by
        simp only [openRetry, hA]
        rw [if_pos hg]
      rw [hstep]
      have hrec := ih
        (⟨none, (applyStop stopB s).running,
          (applyStop stopB s).openAttempts + 1,
          (applyStop stopB s).readFailures⟩ : St)
        (fun q hq => h q (List.mem_cons_of_mem _ hq)) rfl
      exact ⟨hrec.1, hrec.2.1, hrec.2.2.1, hrec.2.2.2⟩
    · have hstep : openRetry ((stopB, a) :: rest) s = ⟨s, [], 0, 0, 0, none⟩ := by
        simp only [openRetry]
        rw [if_neg hg]
      rw [hstep]
      exact ⟨rfl, hc, rfl, rfl⟩

/-- The environment of the escalation scenario: every read fails
cleanly and every reopen fails cleanly. -/
def escalEnv : List IterIn := List.replicate 7 readFailIter

/-- Claim C1: in every run whose environment fails every open attempt
(so that any number N ≥ `MAX_OPEN_ATTEMPTS` of consecutive open
failures is available and no successful open intervenes), the session
halts: `running` ends `false`, the last-resort remediation hook
`_try_system_level_restart` is invoked exactly once, the event sink
receives exactly one terminal `restartFailed` event, and no exception
escapes.  The same holds on the read-escalation route: from a freshly
opened state, seven iterations of failing reads with cleanly failing
reopens drive `openAttempts` to the maximum and halt with exactly one
hook call and one terminal event. -/
theorem c1_exhausted_opens_halt (senv : StartEnv) (lenv : List IterIn)
    (cr : Bool) (h1 : failOpen senv.first)
    (h2 : ∀ p ∈ senv.retries, failOpen p.2) :
    ((fullRun senv lenv cr).s.running = false ∧
     (fullRun senv lenv cr).hooks = 1 ∧
     countEv .restartFailed (fullRun senv lenv cr).evs = 1 ∧
     (fullRun senv lenv cr).exn = none) ∧
    ((runLoop escalEnv openedState).s.running = false ∧
     (runLoop escalEnv openedState).hooks = 1 ∧
     countEv .restartFailed (runLoop escalEnv openedState).evs = 1 ∧
     (runLoop escalEnv openedState).exn = none) := by
  refine ⟨?_, by decide⟩
  have hAf := attempt_open_fail senv.first startState h1 rfl
  simp only [startState] at hAf
  have hor := openRetry_allFail senv.retries
    (⟨none, true, 1, 0⟩ : St) h2 rfl
  have hne : ¬ ((openRetry senv.retries (⟨none, true, 1, 0⟩ : St)).s.cap
      = some true) := by
    rw [hor.2.1]
    simp
  have hstep : startupPhase senv startState =
      (⟨⟨(openRetry senv.retries (⟨none, true, 1, 0⟩ : St)).s.cap, false,
          (openRetry senv.retries (⟨none, true, 1, 0⟩ : St)).s.openAttempts,
          (openRetry senv.retries (⟨none, true, 1, 0⟩ : St)).s.readFailures⟩,
        (openRetry senv.retries (⟨none, true, 1, 0⟩ : St)).evs
          ++ [.openExhausted, .restartFailed],
        (openRetry senv.retries (⟨none, true, 1, 0⟩ : St)).opens + 1,
        (openRetry senv.retries (⟨none, true, 1, 0⟩ : St)).frames,
        (openRetry senv.retries (⟨none, true, 1, 0⟩ : St)).hooks + 1,
        none⟩, false) := by
    simp only [startupPhase, hAf, startState, Nat.zero_add, zero_add]
    rw [hor.1]
    rw [if_neg hne]
  have h2f : (startupPhase senv startState).2 = false := by rw [hstep]
  have hfull : fullRun senv lenv cr = (startupPhase senv startState).1 := by
    simp only [fullRun, h2f, Bool.false_eq_true, if_false]
  rw [hfull, hstep]
  dsimp only
  refine ⟨rfl, ?_, ?_, rfl⟩
  · rw [hor.2.2.2]
  · rw [hor.2.2.1]
    decide

/-- Witness for claim C1 at a concrete input: an environment failing
every open. -/
theorem c1_witness :
    (fullRun ⟨failA, [(false, failA), (false, failA)]⟩ [] false).s.running
      = false ∧
    (fullRun ⟨failA, [(false, failA), (false, failA)]⟩ [] false).hooks = 1 ∧
    countEv .restartFailed
      (fullRun ⟨failA, [(false, failA), (false, failA)]⟩ [] false).evs = 1 :=
  ⟨(c1_exhausted_opens_halt ⟨failA, [(false, failA), (false, failA)]⟩ [] false
      (by decide) (by decide)).1.1,
   (c1_exhausted_opens_halt ⟨failA, [(false, failA), (false, failA)]⟩ [] false
      (by decide) (by decide)).1.2.1,
   (c1_exhausted_opens_halt ⟨failA, [(false, failA), (false, failA)]⟩ [] false
      (by decide) (by decide)).1.2.2.1⟩

/-- Claim C10: if the very first open fails and a stop is requested
during the backoff sleep of the first retry iteration (whose attempt
also fails), the open-retry loop exits with `openAttempts = 2`, still
strictly below `MAX_OPEN_ATTEMPTS`, and the startup code nevertheless
goes through the exhaustion branch: it emits the open-exhausted error
and the terminal event, invokes the last-resort hook exactly once, and
returns without entering the main loop — exactly as if the attempt
maximum had been reached. -/
theorem c10_stop_during_retry_exhausts (f a : OpenAttemptIn)
    (rest : List (Bool × OpenAttemptIn))
    (h1 : failOpen f) (h2 : failOpen a) :
    (startupPhase ⟨f, (true, a) :: rest⟩ startState).2 = false ∧
    (startupPhase ⟨f, (true, a) :: rest⟩ startState).1.s.running = false ∧
    (startupPhase ⟨f, (true, a) :: rest⟩ startState).1.s.openAttempts = 2 ∧
    (startupPhase ⟨f, (true, a) :: rest⟩ startState).1.s.openAttempts
      < MAX_OPEN_ATTEMPTS ∧
    (startupPhase ⟨f, (true, a) :: rest⟩ startState).1.hooks = 1 ∧
    (startupPhase ⟨f, (true, a) :: rest⟩ startState).1.evs
      = [.openExhausted, .restartFailed] ∧
    (startupPhase ⟨f, (true, a) :: rest⟩ startState).1.opens = 2 ∧
    (startupPhase ⟨f, (true, a) :: rest⟩ startState).1.exn = none := by
  have hAf := attempt_open_fail f startState h1 rfl
  simp only [startState] at hAf
  have hstop : applyStop true (⟨none, true, 1, 0⟩ : St) =
      ⟨none, false, 1, 0⟩ := by decide
  have hAa := attempt_open_fail a (applyStop true (⟨none, true, 1, 0⟩ : St))
    h2 (by rw [hstop])
  have hnr := openRetry_notRunning rest
    (⟨none, (applyStop true (⟨none, true, 1, 0⟩ : St)).running,
      (applyStop true (⟨none, true, 1, 0⟩ : St)).openAttempts + 1,
      (applyStop true (⟨none, true, 1, 0⟩ : St)).readFailures⟩ : St)
    (by rw [hstop])
  have hretry : openRetry ((true, a) :: rest) (⟨none, true, 1, 0⟩ : St) =
      ⟨⟨none, false, 2, 0⟩, [], 1, 0, 0, none⟩ := by
    simp only [openRetry, hAa]
    rw [if_pos (show True ∧ 1 < MAX_OPEN_ATTEMPTS from by decide)]
    rw [hnr]
    decide
  have hfinal : startupPhase ⟨f, (true, a) :: rest⟩ startState =
      (⟨⟨none, false, 2, 0⟩, [.openExhausted, .restartFailed], 2, 0, 1, none⟩,
        false) := by
    simp only [startupPhase, hAf, startState, Nat.zero_add, zero_add, hretry]
    decide
  rw [hfinal]
  exact ⟨rfl, rfl, rfl, by decide, rfl, rfl, rfl, rfl⟩

/-- Witness for claim C10 at a concrete input. -/
theorem c10_witness :
    (startupPhase ⟨failA, (true, failA) :: []⟩ startState).2 = false ∧
    (startupPhase ⟨failA, (true, failA) :: []⟩ startState).1.s.openAttempts
      = 2 ∧
    (startupPhase ⟨failA, (true, failA) :: []⟩ startState).1.hooks = 1 :=
  ⟨(c10_stop_during_retry_exhausts failA failA [] (by decide) (by decide)).1,
   (c10_stop_during_retry_exhausts failA failA [] (by decide) (by decide)).2.2.1,
   (c10_stop_during_retry_exhausts failA failA [] (by decide) (by decide)).2.2.2.2.1⟩

end CameraHandler
